import Mathlib

/-!
# Verification of the North ATL event-feed scraper

Shallow embedding, in Lean 4, of the pure core of `scraper.js` (the
full-featured pipeline at the top of `src/unnamed/part_000`; `src/scraper.mjs`
and the other files are earlier near-duplicate revisions of the same code).

The scraper is configuration-driven: per-source configs select one of five
extraction modes (dom, jsonld, json, ics, rss); each extractor turns fetched
content into normalized event records, which are then filtered, merged and
de-duplicated.  Everything effectful (Playwright page interaction, network
fetches, the system clock) is made explicit: page/selector query results and
detail-page fetches become function or list parameters, and the run time
becomes an explicit `now : Int` (milliseconds since the Unix epoch).

JavaScript built-ins used by the scraper (`String.prototype` methods, string
truthiness, the WHATWG `URL` constructor, `Date`) are modelled by executable
Lean functions, documented at their definitions.
-/

/-! ## JS string primitives

The scraper's helper functions (`safe`, `norm`, `toAbs`, `pick`, ...) are tiny
wrappers over JS string built-ins.  We model strings character-wise so that
every definition is structurally recursive and evaluable by `decide`/`rfl`.
-/

/-- Whitespace as matched by JS `trim` / `\s` (ASCII subset; the scraper only
ever sees ASCII whitespace in the claims' inputs). -/
def jsWs (c : Char) : Bool :=
  c = ' ' || c = '\t' || c = '\n' || c = '\r' || c.toNat = 11 || c.toNat = 12

/-- Trim leading and trailing whitespace from a char list. -/
def trimList (l : List Char) : List Char :=
  ((l.dropWhile jsWs).reverse.dropWhile jsWs).reverse

/-- Model of JS `String.prototype.trim`, and of the scraper's
`safe = (v) => (typeof v === 'string' ? v.trim() : ...)` on string input. -/
def jsTrim (s : String) : String := String.mk (trimList s.toList)

/-- ASCII lower-casing of one character (JS `toLowerCase` on the ASCII range). -/
def lowerChar (c : Char) : Char :=
  if c.toNat ≥ 65 && c.toNat ≤ 90 then Char.ofNat (c.toNat + 32) else c

/-- Model of JS `String.prototype.toLowerCase` (ASCII). -/
def jsToLower (s : String) : String := String.mk (s.toList.map lowerChar)

/-- One pass of `replace(/\s+/g, ' ')`: each maximal run of whitespace becomes
a single space.  The boolean flag records whether the previous character was
whitespace. -/
def collapseGo : Bool → List Char → List Char
  | _, [] => []
  | prevWs, c :: rest =>
    if jsWs c then
      if prevWs then collapseGo true rest else ' ' :: collapseGo true rest
    else c :: collapseGo false rest

/-- Model of `replace(/\s+/g, ' ')`. -/
def collapseWs (l : List Char) : List Char := collapseGo false l

/-- The scraper's `norm = (s) => safe(s).toLowerCase().replace(/\s+/g, ' ').trim()`
(scraper.js line 29). -/
def norm (s : String) : String :=
  jsTrim (String.mk (collapseWs (jsToLower (jsTrim s)).toList))

/-- `isPrefixList pat l` decides whether `pat` is a prefix of `l`. -/
def isPrefixList : List Char → List Char → Bool
  | [], _ => true
  | _ :: _, [] => false
  | p :: ps, c :: cs => p = c && isPrefixList ps cs

/-- Index of the first occurrence of `pat` in `s` (JS `String.prototype.indexOf`
-like search; `none` when `pat` does not occur). -/
def findSubIdx (pat : List Char) : List Char → Option Nat
  | [] => if isPrefixList pat [] then some 0 else none
  | c :: rest =>
    if isPrefixList pat (c :: rest) then some 0
    else (findSubIdx pat rest).map (· + 1)

/-- Model of JS `String.prototype.includes`. -/
def jsIncludes (s sub : String) : Bool := (findSubIdx sub.toList s.toList).isSome

/-- Model of JS `String.prototype.startsWith`. -/
def jsStartsWith (p s : String) : Bool := isPrefixList p.toList s.toList

/-- Splitting engine for JS `String.prototype.split` with a non-empty string
separator.  `fuel` bounds the recursion by the remaining input length;
`acc` holds the current (reversed) segment. -/
def splitGo (sep : List Char) : Nat → List Char → List Char → List (List Char)
  | _, acc, [] => [acc.reverse]
  | 0, acc, s => [acc.reverse ++ s]
  | fuel + 1, acc, c :: rest =>
    if sep ≠ [] && isPrefixList sep (c :: rest) then
      acc.reverse :: splitGo sep fuel [] ((c :: rest).drop sep.length)
    else splitGo sep fuel (c :: acc) rest

/-- Model of JS `String.prototype.split(sep)` for a non-empty string `sep`
(the scraper splits on `","`, `"."` and `"BEGIN:VEVENT"`). -/
def jsSplit (sep s : String) : List String :=
  (splitGo sep.toList s.toList.length [] s.toList).map String.mk

/-- JS `a || b` on strings (the empty string is the only falsy string). -/
def jsOr (a b : String) : String := if a = "" then b else a

/-- `[...].filter(Boolean).join(sep)`: drop empty segments, join the rest. -/
def joinSep (sep : String) : List String → String
  | [] => ""
  | [x] => x
  | x :: y :: rest => x ++ sep ++ joinSep sep (y :: rest)

/-- The scraper's `[a, b].filter(Boolean).join(' — ')` idiom. -/
def joinTruthy (sep : String) (l : List String) : String :=
  joinSep sep (l.filter (fun s => s ≠ ""))

/-- The title decoration `(cfg.town ? +[${cfg.town}] + : '')` — an empty town is
falsy and produces no tag. -/
def townTag (town : String) : String :=
  if town = "" then "" else "[" ++ town ++ "] "

/-! ## URL model

`toAbs = (href, base) => { try { return new URL(href, base).href; } catch
{ return href || base; } }` (scraper.js line 38).  The WHATWG `URL`
constructor is a platform built-in; we model it on `scheme://host/path`
shapes, which covers every URL the claims exercise.  A `none` result of
`urlResolve` stands for the constructor throwing. -/

structure ParsedUrl where
  scheme : String
  host : String
  path : String
deriving DecidableEq, Repr

def renderUrl (u : ParsedUrl) : String := u.scheme ++ "://" ++ u.host ++ u.path

def schemeCharOk (c : Char) : Bool :=
  c.isAlpha || c.isDigit || c = '+' || c = '-' || c = '.'

def hostCharOk (c : Char) : Bool :=
  c ≠ '/' && !(jsWs c) && c ≠ '#' && c ≠ '?'

/-- Parse an absolute `scheme://host/path` URL; `none` models a parse failure
(which for `new URL` means a thrown `TypeError`). -/
def parseAbs (s : String) : Option ParsedUrl :=
  match findSubIdx "://".toList s.toList with
  | none => none
  | some i =>
    let scheme := s.toList.take i
    let rest := s.toList.drop (i + 3)
    let host := rest.takeWhile (fun c => c ≠ '/')
    let path := rest.drop host.length
    if (match scheme with | c :: _ => c.isAlpha | [] => false) &&
        scheme.all schemeCharOk && host ≠ [] && host.all hostCharOk then
      some { scheme := String.mk scheme, host := String.mk host,
             path := if path = [] then "/" else String.mk path }
    else none

def isAbsoluteUrl (s : String) : Bool := (parseAbs s).isSome

/-- The directory part of a path: everything up to and including the last `/`. -/
def dirPart (p : String) : String :=
  String.mk ((p.toList.reverse.dropWhile (fun c => c ≠ '/')).reverse)

/-- Resolution of a non-absolute `href` against a parsed base, per the WHATWG
rules the scraper relies on: empty href yields the base itself,
`//host/...` is scheme-relative, `/...` replaces the path, anything else is
relative to the base's directory. -/
def resolveWithBase (b : ParsedUrl) (href : String) : Option String :=
  if href = "" then some (renderUrl b)
  else if jsStartsWith "//" href then
    match parseAbs (b.scheme ++ ":" ++ href) with
    | some u => some (renderUrl u)
    | none => none
  else if jsStartsWith "/" href then some (renderUrl { b with path := href })
  else some (renderUrl { b with path := dirPart b.path ++ href })

/-- Model of `new URL(href, base).href`; `none` models the constructor
throwing. -/
def urlResolve (href base : String) : Option String :=
  match parseAbs href with
  | some u => some (renderUrl u)
  | none =>
    match parseAbs base with
    | none => none
    | some b => resolveWithBase b href

/-- `toAbs` from scraper.js line 38: absolute resolution with a
catch-and-fall-back to `href || base`. -/
def toAbs (href base : String) : String :=
  match urlResolve href base with
  | some u => u
  | none => jsOr href base

/-! ## Date model

`rfc822 = (d) => (d ? new Date(d) : new Date()).toUTCString()` (scraper.js
line 30).  `Date` is a platform built-in; we model its parser on ISO
`YYYY-MM-DD` dates (UTC midnight) and treat every other non-empty string as
unparseable — faithful on the claims' inputs, and the branching behaviour of
`rfc822` (which is what the claims test) does not depend on which strings
parse.  `toUTCString` of an invalid date is the string `"Invalid Date"`. -/

def digitVal (c : Char) : Option Nat :=
  if c.toNat ≥ 48 && c.toNat ≤ 57 then some (c.toNat - 48) else none

def parseDigits (cs : List Char) : Option Nat :=
  cs.foldl (fun acc c =>
    match acc, digitVal c with
    | some a, some d => some (a * 10 + d)
    | _, _ => none) (some 0)

def isLeap (y : Int) : Bool :=
  (Int.emod y 4 = 0 && Int.emod y 100 ≠ 0) || Int.emod y 400 = 0

def daysInMonth (y : Int) (m : Nat) : Nat :=
  match m with
  | 1 => 31 | 2 => if isLeap y then 29 else 28 | 3 => 31 | 4 => 30
  | 5 => 31 | 6 => 30 | 7 => 31 | 8 => 31 | 9 => 30 | 10 => 31
  | 11 => 30 | 12 => 31 | _ => 0

/-- Days since 1970-01-01 of a civil date (Howard Hinnant's algorithm). -/
def daysFromCivil (y0 : Int) (m d : Nat) : Int :=
  let y : Int := if m ≤ 2 then y0 - 1 else y0
  let era := Int.fdiv y 400
  let yoe := y - era * 400
  let mp : Int := if m > 2 then (m : Int) - 3 else (m : Int) + 9
  let doy := Int.ediv (153 * mp + 2) 5 + (d : Int) - 1
  let doe := yoe * 365 + Int.ediv yoe 4 - Int.ediv yoe 100 + doy
  era * 146097 + doe - 719468

/-- Civil date (year, month, day) of a days-since-epoch count. -/
def civilFromDays (z0 : Int) : Int × Int × Int :=
  let z := z0 + 719468
  let era := Int.fdiv z 146097
  let doe := z - era * 146097
  let yoe := Int.ediv (doe - Int.ediv doe 1460 + Int.ediv doe 36524 -
    Int.ediv doe 146096) 365
  let y := yoe + era * 400
  let doy := doe - (365 * yoe + Int.ediv yoe 4 - Int.ediv yoe 100)
  let mp := Int.ediv (5 * doy + 2) 153
  let d := doy - Int.ediv (153 * mp + 2) 5 + 1
  let m := if mp < 10 then mp + 3 else mp - 9
  (if m ≤ 2 then y + 1 else y, m, d)

def pad2 (n : Nat) : String := if n < 10 then "0" ++ toString n else toString n

def dayName (w : Nat) : String :=
  match w with
  | 0 => "Sun" | 1 => "Mon" | 2 => "Tue" | 3 => "Wed"
  | 4 => "Thu" | 5 => "Fri" | _ => "Sat"

def monthName (m : Nat) : String :=
  match m with
  | 1 => "Jan" | 2 => "Feb" | 3 => "Mar" | 4 => "Apr" | 5 => "May" | 6 => "Jun"
  | 7 => "Jul" | 8 => "Aug" | 9 => "Sep" | 10 => "Oct" | 11 => "Nov" | _ => "Dec"

/-- Body of `Date.prototype.toUTCString` for a valid timestamp (`ms` since the
Unix epoch), without the trailing `" GMT"`. -/
def utcBody (ms : Int) : String :=
  let secs := Int.fdiv ms 1000
  let days := Int.fdiv secs 86400
  let sod := (secs - days * 86400).toNat
  let ymd := civilFromDays days
  let dow := (Int.emod (days + 4) 7).toNat
  dayName dow ++ ", " ++ pad2 ymd.2.2.toNat ++ " " ++ monthName ymd.2.1.toNat ++
    " " ++ toString ymd.1 ++ " " ++ pad2 (sod / 3600) ++ ":" ++
    pad2 ((sod / 60) % 60) ++ ":" ++ pad2 (sod % 60)

/-- `Date.prototype.toUTCString` for a valid timestamp. -/
def utcString (ms : Int) : String := utcBody ms ++ " GMT"

/-- Model of `new Date(s)` on a non-empty string: `some ts` when the string
parses (ISO `YYYY-MM-DD`, UTC midnight), `none` for an Invalid Date. -/
def jsDateParse (s : String) : Option Int :=
  match s.toList with
  | [y1, y2, y3, y4, '-', mo1, mo2, '-', d1, d2] =>
    match parseDigits [y1, y2, y3, y4], parseDigits [mo1, mo2],
        parseDigits [d1, d2] with
    | some y, some m, some d =>
      if 1 ≤ m && m ≤ 12 && 1 ≤ d && d ≤ daysInMonth (y : Int) m then
        some (daysFromCivil (y : Int) m d * 86400000)
      else none
    | _, _, _ => none
  | _ => none

/-- The scraper's `rfc822` helper (scraper.js line 30), with the run time `now`
explicit: an empty (falsy) date string means `new Date()` = the current run
time; a non-empty unparseable string yields an Invalid Date, whose
`toUTCString()` is the string `"Invalid Date"`. -/
def rfc822 (d : String) (now : Int) : String :=
  if d = "" then utcString now
  else
    match jsDateParse d with
    | some ts => utcString ts
    | none => "Invalid Date"

/-! ## JSON values

Parsed JSON documents / JSON-LD nodes / XML-parser output, as manipulated by
the extractors.  `Option JVal` is used wherever JS would hold
`undefined`-or-value: `none` is `undefined`. -/

inductive JVal where
  | null
  | bool (b : Bool)
  | num (n : Int)
  | str (s : String)
  | arr (elems : List JVal)
  | obj (fields : List (String × JVal))

/-- JS truthiness of an (optional) value: `undefined`, `null`, `false`, `0`
and `""` are falsy; objects and arrays are always truthy. -/
def truthy : Option JVal → Bool
  | none => false
  | some JVal.null => false
  | some (JVal.bool b) => b
  | some (JVal.num n) => n ≠ 0
  | some (JVal.str s) => s ≠ ""
  | some (JVal.arr _) => true
  | some (JVal.obj _) => true

mutual
/-- JS `String(v)` coercion for a non-nullish value (used when a possibly
non-string value reaches string contexts such as `new URL` or `+`). -/
def jvalToString : JVal → String
  | JVal.null => "null"
  | JVal.bool b => if b then "true" else "false"
  | JVal.num n => toString n
  | JVal.str s => s
  | JVal.obj _ => "[object Object]"
  | JVal.arr l => jvalListToString l

/-- `Array.prototype.toString`: elements joined with `,`. -/
def jvalListToString : List JVal → String
  | [] => ""
  | [v] => jvalElemToString v
  | v :: w :: rest => jvalElemToString v ++ "," ++ jvalListToString (w :: rest)

/-- An array element stringifies to `""` when nullish. -/
def jvalElemToString : JVal → String
  | JVal.null => ""
  | JVal.bool b => if b then "true" else "false"
  | JVal.num n => toString n
  | JVal.str s => s
  | JVal.obj _ => "[object Object]"
  | JVal.arr l => jvalListToString l
end

/-- JS `('' + (v ?? ''))`-style coercion of an optional value, with
`undefined` coercing to `"undefined"` when not nullish-guarded (`String(v)`). -/
def jsToString : Option JVal → String
  | none => "undefined"
  | some v => jvalToString v

/-- The scraper's `safe = (v) => (typeof v === 'string' ? v.trim() : (v ?? '') + '')`
applied to an optional JSON value. -/
def safeVal : Option JVal → String
  | some (JVal.str s) => jsTrim s
  | none => ""
  | some JVal.null => ""
  | some v => jvalToString v

/-- Property access `o[k]` on values coming out of JSON/XML parsing: field
lookup on objects, index lookup on arrays, `undefined` on everything else
(and on falsy receivers).  This also models the guarded
`o && (k in o) ? o[k] : undefined` step of the scraper's `pick`, which on the
reachable inputs (JSON objects/arrays) agrees with plain access; the throwing
`in`-on-primitive case is unreachable in the pipeline. -/
def jsGet (v : Option JVal) (k : String) : Option JVal :=
  match v with
  | some (JVal.obj fs) =>
    match fs.find? (fun p => p.1 == k) with
    | some p => some p.2
    | none => none
  | some (JVal.arr l) =>
    match k.toNat? with
    | some i => l.get? i
    | none => none
  | _ => none

/-- JS `a || b` on optional values. -/
def jsOrVal (a b : Option JVal) : Option JVal := if truthy a then a else b

/-- The scraper's deep getter
`pick = (obj, pathStr) => { if (!pathStr) return undefined;
return pathStr.split('.').reduce((o,k)=> (o && (k in o) ? o[k] : undefined), obj); }`
(scraper.js lines 39-42). -/
def pick (v : Option JVal) (pathStr : String) : Option JVal :=
  if pathStr = "" then none
  else (jsSplit "." pathStr).foldl jsGet v

/-- `pick` fed an optional path (`cfg.map?.path` may be `undefined`). -/
def pickOpt (v : Option JVal) (p : Option String) : Option JVal :=
  match p with
  | none => none
  | some s => pick v s

def isArr : JVal → Bool
  | JVal.arr _ => true
  | _ => false

def isArrOpt : Option JVal → Bool
  | some (JVal.arr _) => true
  | _ => false

/-! ## Source configuration, filters, and the normalized record -/

/-- `cfg.filters = { include?: [...], exclude?: [...] }`; `none` for an absent
array.  (`include` is a Lean keyword, hence `incl`/`excl`.) -/
structure Filters where
  incl : Option (List String)
  excl : Option (List String)
deriving DecidableEq, Repr

/-- The filter predicate `cfg._filter` built by `applyDefaults` (scraper.js
lines 64-73): with no `filters`, accept everything; otherwise reject when any
exclude term occurs (case-insensitive substring), then reject when an include
array is present and no include term occurs. -/
def applyFilter : Option Filters → String → Bool
  | none, _ => true
  | some fl, txt =>
    if (fl.excl.getD []).any (fun w => jsIncludes (jsToLower txt) (jsToLower w))
    then false
    else
      match fl.incl with
      | some inc => inc.any (fun w => jsIncludes (jsToLower txt) (jsToLower w))
      | none => true

/-- The `map` field of a json-mode source: optional dot-paths overriding the
default field names. -/
structure JsonMap where
  path : Option String
  title : Option String
  link : Option String
  date : Option String
  venue : Option String
  image : Option String
deriving DecidableEq, Repr

/-- One source configuration.  Mode-irrelevant locators are simply unused by
the extractor in question; absent free-text fields (`town`, `venue`) are the
empty string, which is JS-falsy exactly like the absent field. -/
structure SourceCfg where
  url : String := ""
  api : String := ""
  ics : String := ""
  rss : String := ""
  town : String := ""
  venue : String := ""
  map : Option JsonMap := none
  filters : Option Filters := none
  max : Option Nat := none
deriving DecidableEq, Repr

/-- `cfg.max || 220` (scraper.js line 321): an absent or zero `max` falls back
to the default 220. -/
def maxOf (cfg : SourceCfg) : Nat :=
  match cfg.max with
  | some n => if n = 0 then 220 else n
  | none => 220

/-- The normalized event record every extractor emits. -/
structure EventRecord where
  title : String
  link : String
  guid : String
  pubDate : String
  description : String
  image : String
  town : String
  venue : String
deriving DecidableEq, Repr

/-- A map-field override is used only when present and truthy (non-empty):
`cfg.map?.title ? pick(e, cfg.map.title) : default`. -/
def mapField (cfg : SourceCfg) (f : JsonMap → Option String) : Option String :=
  match cfg.map.bind f with
  | some p => if p = "" then none else some p
  | none => none

/-! ## JSON API extractor (`scrapeJSON`, scraper.js lines 409-445)

The network fetch and the JSON parse are collaborators; the core consumes the
parsed body `data : JVal`. -/

/-- `title = safe(cfg.map?.title ? pick(e, cfg.map.title) : (e.title || e.name))`. -/
def jsonTitleOf (cfg : SourceCfg) (e : JVal) : String :=
  match mapField cfg JsonMap.title with
  | some p => safeVal (pick (some e) p)
  | none => safeVal (jsOrVal (jsGet (some e) "title") (jsGet (some e) "name"))

/-- `link = toAbs(safe(cfg.map?.link ? pick(e, cfg.map.link) : (e.url || e.link)) || cfg.api, cfg.api)`. -/
def jsonLinkOf (cfg : SourceCfg) (e : JVal) : String :=
  toAbs
    (jsOr
      (match mapField cfg JsonMap.link with
       | some p => safeVal (pick (some e) p)
       | none => safeVal (jsOrVal (jsGet (some e) "url") (jsGet (some e) "link")))
      cfg.api)
    cfg.api

/-- `date = safe(cfg.map?.date ? pick(e, cfg.map.date) : (e.start_date || e.start || e.date || ''))`. -/
def jsonDateOf (cfg : SourceCfg) (e : JVal) : String :=
  match mapField cfg JsonMap.date with
  | some p => safeVal (pick (some e) p)
  | none =>
    safeVal (jsOrVal (jsOrVal (jsOrVal (jsGet (some e) "start_date")
      (jsGet (some e) "start")) (jsGet (some e) "date")) (some (JVal.str "")))

/-- `venue = safe(cfg.map?.venue ? pick(e, cfg.map.venue) : (e?.venue?.name || e.venue || cfg.venue || ''))`. -/
def jsonVenueOf (cfg : SourceCfg) (e : JVal) : String :=
  match mapField cfg JsonMap.venue with
  | some p => safeVal (pick (some e) p)
  | none =>
    safeVal (jsOrVal (jsOrVal (jsOrVal (jsGet (jsGet (some e) "venue") "name")
      (jsGet (some e) "venue")) (some (JVal.str cfg.venue))) (some (JVal.str "")))

/-- `(Array.isArray(e.images) ? e.images[0] : '')`. -/
def jsonImagesFirst (e : JVal) : Option JVal :=
  match jsGet (some e) "images" with
  | some (JVal.arr l) => l.head?
  | _ => some (JVal.str "")

/-- The image pipeline of `scrapeJSON`, ending in `toAbs(img, link)`. -/
def jsonImageOf (cfg : SourceCfg) (e : JVal) (link : String) : String :=
  toAbs
    (match mapField cfg JsonMap.image with
     | some p => safeVal (jsOrVal (pick (some e) p) (some (JVal.str "")))
     | none =>
       safeVal (jsOrVal (jsOrVal (jsGet (some e) "image")
         (jsGet (some e) "featured_image")) (jsonImagesFirst e)))
    link

/-- The body of the per-object loop of `scrapeJSON`: compute the fields, apply
the filter to the text blob, and either emit one record or skip. -/
def scrapeJSONItem (now : Int) (cfg : SourceCfg) (e : JVal) : Option EventRecord :=
  if applyFilter cfg.filters (jsonTitleOf cfg e ++ " " ++ jsonVenueOf cfg e) then
    some
      { title := townTag cfg.town ++ jsonTitleOf cfg e
        link := jsonLinkOf cfg e
        guid := jsonLinkOf cfg e ++ "#" ++ norm (jsonTitleOf cfg e) ++ "#" ++
          norm (jsonDateOf cfg e)
        pubDate := rfc822 (jsonDateOf cfg e) now
        description := joinTruthy " — " [jsonVenueOf cfg e, jsonDateOf cfg e]
        image := jsonImageOf cfg e (jsonLinkOf cfg e)
        town := jsOr cfg.town ""
        venue := jsOr (jsOr cfg.venue (jsonVenueOf cfg e)) "" }
  else none

/-- `const list = Array.isArray(pick(data, cfg.map?.path)) ? pick(data, cfg.map.path)
: (Array.isArray(data) ? data : []);` — the event list is taken from the
configured dot-path when that resolves to an array, else the whole body when
it is an array, else the empty list. -/
def jsonListOf (cfg : SourceCfg) (data : JVal) : List JVal :=
  match pickOpt (some data) (cfg.map.bind JsonMap.path) with
  | some (JVal.arr l) => l
  | _ =>
    match data with
    | JVal.arr l => l
    | _ => []

/-- `scrapeJSON` on an already-fetched, already-parsed body. -/
def scrapeJSONCore (now : Int) (cfg : SourceCfg) (data : JVal) : List EventRecord :=
  (jsonListOf cfg data).filterMap (scrapeJSONItem now cfg)

/-! ## JSON-LD extractor (`scrapeJSONLD`, scraper.js lines 219-269)

The page navigation and script collection are collaborators; the core
consumes the per-script parse results (`none` = `JSON.parse` threw, and the
block is skipped). -/

/-- Flattening of one parsed script: top-level arrays contribute their
elements; a single object contributes itself plus any `@graph` array. -/
def ldFlattenOne (j : JVal) : List JVal :=
  match j with
  | JVal.arr l => l
  | _ =>
    j :: (match jsGet (some j) "@graph" with
          | some (JVal.arr g) => g
          | _ => [])

/-- `node['@type'] === 'Event'`. -/
def isEventNode (n : JVal) : Bool :=
  match jsGet (some n) "@type" with
  | some (JVal.str s) => s = "Event"
  | _ => false

/-- The node-collection loop: skip falsy nodes, take `Event` nodes, and take
`Event` items of a node's `event` array. -/
def ldCollect (nodes : List JVal) : List JVal :=
  nodes.foldr
    (fun node acc =>
      if truthy (some node) then
        (if isEventNode node then [node] else []) ++
          (match jsGet (some node) "event" with
           | some (JVal.arr evs) => evs.filter isEventNode
           | _ => []) ++ acc
      else acc) []

def ldTitleOf (e : JVal) : String := safeVal (jsGet (some e) "name")

/-- `url = toAbs(safe(e.url) || cfg.url, cfg.url)`. -/
def ldUrlOf (cfg : SourceCfg) (e : JVal) : String :=
  toAbs (jsOr (safeVal (jsGet (some e) "url")) cfg.url) cfg.url

/-- `start = safe(e.startDate || e.startTime)`. -/
def ldStartOf (e : JVal) : String :=
  safeVal (jsOrVal (jsGet (some e) "startDate") (jsGet (some e) "startTime"))

/-- `venue = safe(e?.location?.name || cfg.venue)`. -/
def ldVenueOf (cfg : SourceCfg) (e : JVal) : String :=
  safeVal (jsOrVal (jsGet (jsGet (some e) "location") "name")
    (some (JVal.str cfg.venue)))

/-- The polymorphic image field: a plain string, an object with a truthy
`url`, or a non-empty array whose head is a string or has a `url`. -/
def ldImgVal (ri : Option JVal) : Option JVal :=
  match ri with
  | some (JVal.str s) => some (JVal.str s)
  | some (JVal.obj fs) =>
    if truthy (jsGet (some (JVal.obj fs)) "url") then
      jsGet (some (JVal.obj fs)) "url"
    else some (JVal.str "")
  | some (JVal.arr (h :: _)) =>
    (match h with
     | JVal.str s => some (JVal.str s)
     | _ => jsOrVal (jsGet (some h) "url") (some (JVal.str "")))
  | _ => some (JVal.str "")

/-- `img = toAbs(safe(img), cfg.url)` after the polymorphic extraction. -/
def ldImageOf (cfg : SourceCfg) (e : JVal) : String :=
  toAbs (safeVal (ldImgVal (jsGet (some e) "image"))) cfg.url

/-- The per-event body of `scrapeJSONLD`'s loop. -/
def scrapeJSONLDItem (now : Int) (cfg : SourceCfg) (e : JVal) : Option EventRecord :=
  if applyFilter cfg.filters (ldTitleOf e ++ " " ++ ldVenueOf cfg e) then
    some
      { title := townTag cfg.town ++ ldTitleOf e
        link := ldUrlOf cfg e
        guid := ldUrlOf cfg e ++ "#" ++ norm (ldTitleOf e) ++ "#" ++
          norm (ldStartOf e)
        pubDate := rfc822 (ldStartOf e) now
        description := joinTruthy " — " [ldVenueOf cfg e, ldStartOf e]
        image := ldImageOf cfg e
        town := jsOr cfg.town ""
        venue := jsOr (jsOr cfg.venue (ldVenueOf cfg e)) "" }
  else none

/-- `scrapeJSONLD` on the collected script parse results. -/
def scrapeJSONLDCore (now : Int) (cfg : SourceCfg) (scripts : List (Option JVal)) :
    List EventRecord :=
  (scripts.foldr
      (fun s acc =>
        (match s with
         | some j => ldCollect (ldFlattenOne j)
         | none => []) ++ acc) []).filterMap (scrapeJSONLDItem now cfg)

/-! ## ICS extractor (`scrapeICS`, scraper.js lines 447-483) -/

/-- The per-block field getter
`get = (k) => (block.match(new RegExp(`KEY:(.*)`)) || [, ''])[1].trim()`:
the FIRST occurrence of `k ++ ":"` anywhere in the block (the regex is not
anchored to a line start), value = the rest of that line, trimmed; empty when
the key does not occur. -/
def icsGet (block k : String) : String :=
  match findSubIdx (k ++ ":").toList block.toList with
  | none => ""
  | some i =>
    jsTrim (String.mk ((block.toList.drop (i + k.length + 1)).takeWhile
      (fun c => c ≠ '\n' && c ≠ '\r')))

/-- The spec's reading of the same getter, for comparison: the value comes
from the first LINE of the block that STARTS WITH `k ++ ":"`. -/
def icsGetSpec (block k : String) : String :=
  match (jsSplit "\n" block).find? (fun line => jsStartsWith (k ++ ":") line) with
  | some line => jsTrim (String.mk (line.toList.drop (k.length + 1)))
  | none => ""

structure IcsEv where
  summary : String
  url : String
  dtstart : String
  venue : String
deriving DecidableEq, Repr

/-- Per-block parse: `SUMMARY`, `URL` (defaulting to the calendar URL),
`DTSTART`, `LOCATION` (defaulting to the configured venue). -/
def icsParse (cfg : SourceCfg) (block : String) : IcsEv :=
  { summary := icsGet block "SUMMARY"
    url := jsOr (icsGet block "URL") cfg.ics
    dtstart := jsOr (icsGet block "DTSTART") ""
    venue := jsOr (jsOr (icsGet block "LOCATION") cfg.venue) "" }

def icsTitleOf (ev : IcsEv) : String := jsTrim ev.summary

def icsDescOf (cfg : SourceCfg) (ev : IcsEv) : String :=
  joinTruthy " — " [jsOr (jsOr cfg.venue ev.venue) "", jsTrim ev.dtstart]

/-- The per-event body of `scrapeICS`'s loop. -/
def scrapeICSItem (now : Int) (cfg : SourceCfg) (ev : IcsEv) : Option EventRecord :=
  if applyFilter cfg.filters (icsTitleOf ev ++ " " ++ icsDescOf cfg ev) then
    some
      { title := townTag cfg.town ++ icsTitleOf ev
        link := toAbs (jsOr ev.url cfg.ics) cfg.ics
        guid := toAbs (jsOr ev.url cfg.ics) cfg.ics ++ "#" ++
          norm (icsTitleOf ev) ++ "#" ++ norm (jsTrim ev.dtstart)
        pubDate := rfc822 (jsTrim ev.dtstart) now
        description := icsDescOf cfg ev
        image := ""
        town := jsOr cfg.town ""
        venue := jsOr cfg.venue "" }
  else none

/-- `scrapeICS` on the already-fetched calendar text: split on `BEGIN:VEVENT`,
drop the preamble (`.slice(1)`), parse each block, filter and emit. -/
def scrapeICSCore (now : Int) (cfg : SourceCfg) (text : String) : List EventRecord :=
  (((jsSplit "BEGIN:VEVENT" text).drop 1).map (icsParse cfg)).filterMap
    (scrapeICSItem now cfg)

/-! ## RSS/Atom extractor (`scrapeRSS`, scraper.js lines 485-538)

The fetch and the `fast-xml-parser` call are collaborators; the core consumes
the parser's output as a `JVal` (attributes prefixed `@_`, wrapped text under
`#text`, exactly as the parser produces them). -/

/-- `title = safe(e.title?.['#text'] || e.title || e['media:title'] || '')`. -/
def rssTitleOf (e : JVal) : String :=
  safeVal (jsOrVal (jsOrVal (jsOrVal (jsGet (jsGet (some e) "title") "#text")
    (jsGet (some e) "title")) (jsGet (some e) "media:title"))
    (some (JVal.str "")))

/-- The raw polymorphic `link` expression:
`e.link?.['@_href'] || (Array.isArray(e.link) ? (e.link.find(l => l['@_href'])?.['@_href'] || e.link[0]) : e.link) || e.guid || cfg.rss`. -/
def rssLinkVal (cfg : SourceCfg) (e : JVal) : Option JVal :=
  jsOrVal
    (jsOrVal
      (jsOrVal (jsGet (jsGet (some e) "link") "@_href")
        (match jsGet (some e) "link" with
         | some (JVal.arr l) =>
           jsOrVal
             (match l.find? (fun x => truthy (jsGet (some x) "@_href")) with
              | some x => jsGet (some x) "@_href"
              | none => none)
             l.head?
         | v => v))
      (jsGet (some e) "guid"))
    (some (JVal.str cfg.rss))

/-- `desc = safe(e['content:encoded']?.['#text'] || e['content:encoded'] || e.description?.['#text'] || e.description || e.summary?.['#text'] || e.summary || '')`. -/
def rssDescOf (e : JVal) : String :=
  safeVal (jsOrVal (jsOrVal (jsOrVal (jsOrVal (jsOrVal (jsOrVal
    (jsGet (jsGet (some e) "content:encoded") "#text")
    (jsGet (some e) "content:encoded"))
    (jsGet (jsGet (some e) "description") "#text"))
    (jsGet (some e) "description"))
    (jsGet (jsGet (some e) "summary") "#text"))
    (jsGet (some e) "summary"))
    (some (JVal.str "")))

/-- `pub = safe(e.pubDate || e.updated || e.published || new Date().toUTCString())`. -/
def rssPubOf (now : Int) (e : JVal) : String :=
  safeVal (jsOrVal (jsOrVal (jsOrVal (jsGet (some e) "pubDate")
    (jsGet (some e) "updated")) (jsGet (some e) "published"))
    (some (JVal.str (utcString now))))

/-- Capturing part of the regex `<img[^>]+src=["']([^"']+)["']` once positioned
after a quote: one or more non-quote characters followed by a quote. -/
def imgSrcCapture (l : List Char) : Option String :=
  match l with
  | q :: rest =>
    if q.toNat = 34 || q.toNat = 39 then
      (fun v =>
        if v ≠ [] && rest.drop v.length ≠ [] then some (String.mk v) else none)
        (rest.takeWhile (fun c => c.toNat ≠ 34 && c.toNat ≠ 39))
    else none
  | [] => none

/-- Scan inside an `<img` tag (region of `[^>]` characters) for `src=` followed
by a quoted capture; a failed capture continues the scan, a `>` aborts. -/
def imgSrcIn : List Char → Option String
  | [] => none
  | c :: rest =>
    if c = '>' then none
    else if isPrefixList "src=".toList rest then
      match imgSrcCapture (rest.drop 4) with
      | some v => some v
      | none => imgSrcIn rest
    else imgSrcIn rest

/-- Leftmost match of the regex `<img[^>]+src=["']([^"']+)["']`. -/
def imgSrcFind : List Char → Option String
  | [] => none
  | c :: rest =>
    if isPrefixList "<img".toList (c :: rest) then
      match imgSrcIn rest.tail with
      | some v => some v
      | none => imgSrcFind rest
    else imgSrcFind rest

/-- `const m = html.match(/<img[^>]+src=["']([^"']+)["']/i); return m ? m[1] : '';`
(the final image fallback of `scrapeRSS`, mining an `<img>` tag out of the
entry's HTML). -/
def regexImgSrc (html : String) : String :=
  match imgSrcFind html.toList with
  | some v => v
  | none => ""

/-- The HTML searched by that fallback:
`(e['content:encoded']?.['#text'] || e['content:encoded'] || desc || '') + ''`. -/
def rssImgHtml (e : JVal) : String :=
  jsToString (jsOrVal (jsOrVal (jsOrVal
    (jsGet (jsGet (some e) "content:encoded") "#text")
    (jsGet (some e) "content:encoded"))
    (some (JVal.str (rssDescOf e))))
    (some (JVal.str "")))

/-- The enclosure image case:
`(e.enclosure && e.enclosure['@_type'] && (''+e.enclosure['@_type']).startsWith('image/') ? e.enclosure['@_url'] : (e.enclosure?.['@_url'] || ''))`. -/
def rssEnclosureVal (e : JVal) : Option JVal :=
  if truthy (jsGet (some e) "enclosure") &&
      truthy (jsGet (jsGet (some e) "enclosure") "@_type") &&
      jsStartsWith "image/" (jsToString (jsGet (jsGet (some e) "enclosure") "@_type"))
  then jsGet (jsGet (some e) "enclosure") "@_url"
  else jsOrVal (jsGet (jsGet (some e) "enclosure") "@_url") (some (JVal.str ""))

/-- The full `img` pipeline of `scrapeRSS`. -/
def rssImgVal (e : JVal) : Option JVal :=
  jsOrVal
    (jsOrVal
      (jsOrVal (jsGet (jsGet (some e) "media:content") "@_url")
        (match jsGet (some e) "media:content" with
         | some (JVal.arr l) => jsGet l.head? "@_url"
         | _ => some (JVal.str "")))
      (rssEnclosureVal e))
    (some (JVal.str (regexImgSrc (rssImgHtml e))))

def rssPrettyDesc (cfg : SourceCfg) (e : JVal) : String :=
  joinTruthy " — " [cfg.venue, rssDescOf e]

/-- The per-entry body of `scrapeRSS`'s loop.  Non-string values reaching
string contexts (`new URL`, `+`) go through JS `ToString` (`jsToString`). -/
def scrapeRSSItem (now : Int) (cfg : SourceCfg) (e : JVal) : Option EventRecord :=
  if applyFilter cfg.filters (rssTitleOf e ++ " " ++ rssPrettyDesc cfg e) then
    some
      { title := townTag cfg.town ++ rssTitleOf e
        link := toAbs (jsToString (rssLinkVal cfg e)) cfg.rss
        guid := jsToString (jsOrVal (rssLinkVal cfg e) (some (JVal.str cfg.rss))) ++
          "#" ++ norm (rssTitleOf e)
        pubDate := rfc822 (rssPubOf now e) now
        description := rssPrettyDesc cfg e
        image :=
          if truthy (rssImgVal e) then
            toAbs (jsToString (rssImgVal e)) (jsToString (rssLinkVal cfg e))
          else ""
        town := jsOr cfg.town ""
        venue := jsOr cfg.venue "" }
  else none

/-- `scrapeRSS` on the parsed feed document: channel under `rss.channel` or
`feed`, entries under `item` or `entry`, a singleton normalized to a list. -/
def scrapeRSSCore (now : Int) (cfg : SourceCfg) (parsed : JVal) : List EventRecord :=
  match jsOrVal (jsGet (jsOrVal (jsGet (jsGet (some parsed) "rss") "channel")
      (jsOrVal (jsGet (some parsed) "feed") (some (JVal.obj [])))) "item")
      (jsOrVal (jsGet (jsOrVal (jsGet (jsGet (some parsed) "rss") "channel")
        (jsOrVal (jsGet (some parsed) "feed") (some (JVal.obj [])))) "entry")
        (some (JVal.arr []))) with
  | some (JVal.arr l) => l.filterMap (scrapeRSSItem now cfg)
  | some v => [v].filterMap (scrapeRSSItem now cfg)
  | none => []

/-! ## DOM extractor (`scrapeDOM`, scraper.js lines 271-407)

Page navigation, cookie-banner clicks, auto-scroll, the anti-bot checks, the
`jsonldFirst` redirect and the empty-result reload are page-interaction
collaborators.  The extraction loop itself consumes one `Card` per matched
item element; each field of a `Card` lists, per candidate selector of the
config's comma-separated list, the result that selector would produce on that
element (`none` = no element found / the query threw). -/

structure Card where
  /-- Per title selector: `innerTextSafe` of the first match (`""` when the
  selector finds nothing or the text read fails). -/
  titleCands : List String
  /-- Per link selector: `none` when no element matches, `some a` for a found
  element whose `href` attribute reads as `a` (`""` for a null attribute). -/
  linkCands : List (Option String)
  /-- Per date selector: `none` when no element matches or `innerText` throws,
  `some t` for a successful text read. -/
  dateCands : List (Option String)
  /-- Per image selector: `none` when no element matches, `some s` for a found
  element whose attribute-priority pipeline (`src`, `data-src`,
  `data-original`, `data-lazy`, `data-image`, first of `srcset`,
  `background-image` in `style`) selects raw source `s` (possibly `""`). -/
  imageCands : List (Option String)
deriving DecidableEq, Repr

/-- The title loop: first candidate yielding non-empty text wins. -/
def firstText : List String → String
  | [] => ""
  | t :: rest => if t ≠ "" then t else firstText rest

/-- The link/date loops: skip missing elements, `safe` the value, first
non-empty wins. -/
def firstAttr : List (Option String) → String
  | [] => ""
  | none :: rest => firstAttr rest
  | some a :: rest => if jsTrim a ≠ "" then jsTrim a else firstAttr rest

def domTitleOf (card : Card) : String := firstText card.titleCands

/-- The extracted `href` before resolution. -/
def domHrefRaw (card : Card) : String := firstAttr card.linkCands

/-- `if (href && href.startsWith('/')) href = toAbs(href, cfg.url);` — only
root-relative hrefs are resolved. -/
def domHrefOf (cfg : SourceCfg) (card : Card) : String :=
  if domHrefRaw card ≠ "" ∧ jsStartsWith "/" (domHrefRaw card) = true then
    toAbs (domHrefRaw card) cfg.url
  else domHrefRaw card

def domDateOf (card : Card) : String := firstAttr card.dateCands

/-- The image loop: per present element, `imageUrl = toAbs(src..., cfg.url)`,
break on non-empty. -/
def domImageOf (cfg : SourceCfg) : List (Option String) → String
  | [] => ""
  | none :: rest => domImageOf cfg rest
  | some s :: rest =>
    if toAbs s cfg.url ≠ "" then toAbs s cfg.url else domImageOf cfg rest

/-- The per-element body of `scrapeDOM`'s loop: an element with neither title
nor href is skipped; the filter applies to `title ++ " " ++ date ++ " " ++ venue`;
a missing image falls back to the detail-page fetch (`detail`, modelling
`fetchDetailImage`). -/
def domItem (now : Int) (cfg : SourceCfg) (detail : String → String)
    (card : Card) : Option EventRecord :=
  if domTitleOf card = "" ∧ domHrefOf cfg card = "" then none
  else if applyFilter cfg.filters
      (domTitleOf card ++ " " ++ domDateOf card ++ " " ++ jsOr cfg.venue "") then
    some
      { title := townTag cfg.town ++ domTitleOf card
        link := jsOr (domHrefOf cfg card) cfg.url
        guid := jsOr (domHrefOf cfg card) cfg.url ++ "#" ++
          norm (domTitleOf card) ++ "#" ++ norm (domDateOf card)
        pubDate := rfc822 (domDateOf card) now
        description := joinTruthy " — " [cfg.venue, domDateOf card]
        image :=
          jsOr
            (if domImageOf cfg card.imageCands = "" ∧ domHrefOf cfg card ≠ ""
             then detail (domHrefOf cfg card)
             else domImageOf cfg card.imageCands) ""
        town := jsOr cfg.town ""
        venue := jsOr cfg.venue "" }
  else none

/-- The extraction loop of `scrapeDOM`:
`const take = Math.min(cards.length, cfg.max || 220);` then iterate the first
`take` elements — the cap counts scanned elements, emitted or not. -/
def scrapeDOMCore (now : Int) (cfg : SourceCfg) (detail : String → String)
    (cards : List Card) : List EventRecord :=
  (cards.take (Nat.min cards.length (maxOf cfg))).filterMap (domItem now cfg detail)

/-! ## Selector resolver (`firstExistingSelector`, scraper.js lines 76-90)

The live page is modelled as `counts : Nat → String → Option Nat`: the match
count a selector query returns on a given poll round, `none` when the query
throws (malformed/unsupported selector).  Real time is modelled by `fuel`,
the number of further poll rounds before `Date.now() - start > timeoutMs`;
the function is total, so it cannot raise on any selector. -/

/-- One poll round over the candidate list: the FIRST candidate in list order
whose count query succeeds with a positive count; a throwing candidate is
treated as no match and iteration continues. -/
def roundMatch (counts : Nat → String → Option Nat) (round : Nat) :
    List String → Option String
  | [] => none
  | s :: rest =>
    match counts round s with
    | some c => if 0 < c then some s else roundMatch counts round rest
    | none => roundMatch counts round rest

/-- The polling loop: try a round; on no match, return `null` when the timeout
has elapsed (`fuel = 0`), else sleep and poll the next round. -/
def fesLoop (counts : Nat → String → Option Nat) (list : List String) :
    Nat → Nat → Option String
  | round, 0 =>
    match roundMatch counts round list with
    | some sel => some sel
    | none => none
  | round, fuel + 1 =>
    match roundMatch counts round list with
    | some sel => some sel
    | none => fesLoop counts list (round + 1) fuel

/-- `candidates.split(',').map(s => s.trim()).filter(Boolean)`. -/
def fesList (candidates : String) : List String :=
  ((jsSplit "," candidates).map jsTrim).filter (fun s => s ≠ "")

/-- `firstExistingSelector` itself; `!candidates` (an absent/empty candidate
string) short-circuits to `null`. -/
def firstExistingSelector (counts : Nat → String → Option Nat)
    (candidates : String) (fuel : Nat) : Option String :=
  if candidates = "" then none
  else fesLoop counts (fesList candidates) 0 fuel

/-! ## Merge & de-duplication (scraper.js lines 594-601) -/

/-- `const k = norm(it.title) + '|' + norm(it.description) + '|' + norm(it.link);`. -/
def dedupKey (r : EventRecord) : String :=
  norm r.title ++ "|" ++ norm r.description ++ "|" ++ norm r.link

/-- The dedup loop, with the `seen` set of keys made explicit. -/
def dedupGo (seen : List String) : List EventRecord → List EventRecord
  | [] => []
  | it :: rest =>
    if dedupKey it ∈ seen then dedupGo seen rest
    else it :: dedupGo (dedupKey it :: seen) rest

/-- The whole de-duplication pass over the aggregated record list. -/
def dedup (items : List EventRecord) : List EventRecord := dedupGo [] items
/-! ## Supporting lemmas -/

theorem string_data_append (a b : String) : (a ++ b).data = a.data ++ b.data := by
  cases a; cases b; rfl

theorem append_gmt_ne_invalid (s : String) : s ++ " GMT" ≠ "Invalid Date" := by
  intro h
  have hd : (s ++ " GMT").data = "Invalid Date".data := congrArg String.data h
  rw [string_data_append] at hd
  have h4 : (" GMT").data.length = 4 := by decide
  have h12 : ("Invalid Date").data.length = 12 := by decide
  have hlen : s.data.length + (" GMT").data.length = ("Invalid Date").data.length := by
    simpa using congrArg List.length hd
  have hslen : s.data.length = 8 := by omega
  have htake : s.data ++ (" GMT").data =
      ("Invalid Date").data.take 8 ++ ("Invalid Date").data.drop 8 := by
    rw [List.take_append_drop]; exact hd
  have := (List.append_inj htake (by rw [hslen]; decide)).2
  simp at this

theorem renderUrl_ne_empty (u : ParsedUrl) : renderUrl u ≠ "" := by
  intro h
  have hd : (renderUrl u).data = "".data := congrArg String.data h
  unfold renderUrl at hd
  rw [string_data_append, string_data_append, string_data_append] at hd
  rcases List.append_eq_nil.mp hd with ⟨h1, _⟩
  rcases List.append_eq_nil.mp h1 with ⟨h2, _⟩
  rcases List.append_eq_nil.mp h2 with ⟨_, h3⟩
  simp at h3

theorem resolveWithBase_some_ne_empty (pb : ParsedUrl) (hs u : String)
    (hres : resolveWithBase pb hs = some u) : u ≠ "" := by
  unfold resolveWithBase at hres
  split at hres
  · cases hres; exact renderUrl_ne_empty pb
  · split at hres
    · split at hres
      · cases hres; exact renderUrl_ne_empty _
      · exact Option.noConfusion hres
    · split at hres
      · cases hres; exact renderUrl_ne_empty _
      · cases hres; exact renderUrl_ne_empty _

theorem urlResolve_some_ne_empty (h b u : String) (hres : urlResolve h b = some u) :
    u ≠ "" := by
  unfold urlResolve at hres
  split at hres
  · cases hres; exact renderUrl_ne_empty _
  · split at hres
    · exact Option.noConfusion hres
    · exact resolveWithBase_some_ne_empty _ _ _ hres

theorem toAbs_eq_of_resolve (h b u : String) (hres : urlResolve h b = some u) :
    toAbs h b = u := by
  unfold toAbs; rw [hres]

theorem toAbs_eq_of_fail (h b : String) (hres : urlResolve h b = none) :
    toAbs h b = jsOr h b := by
  unfold toAbs; rw [hres]

theorem toAbs_ne_empty (h b : String) (hne : h ≠ "") : toAbs h b ≠ "" := by
  unfold toAbs
  cases hres : urlResolve h b with
  | some u => exact urlResolve_some_ne_empty h b u hres
  | none => simp [jsOr, hne]

/-! ### Dedup lemmas -/

theorem dedupGo_length_le (l : List EventRecord) :
    ∀ seen, (dedupGo seen l).length ≤ l.length := by
  induction l with
  | nil => intro seen; simp [dedupGo]
  | cons it rest ih =>
    intro seen
    unfold dedupGo
    split
    · exact Nat.le_trans (ih seen) (Nat.le_succ _)
    · simpa using ih (dedupKey it :: seen)

theorem dedupGo_key_not_seen (l : List EventRecord) :
    ∀ seen r, r ∈ dedupGo seen l → dedupKey r ∉ seen := by
  induction l with
  | nil => intro seen r hr; simp [dedupGo] at hr
  | cons it rest ih =>
    intro seen r hr
    unfold dedupGo at hr
    split at hr
    · exact ih seen r hr
    · rcases List.mem_cons.mp hr with rfl | hmem
      · assumption
      · have := ih _ r hmem
        intro hcon
        exact this (List.mem_cons_of_mem _ hcon)

theorem dedupGo_pairwise (l : List EventRecord) :
    ∀ seen, List.Pairwise (fun a b => dedupKey a ≠ dedupKey b) (dedupGo seen l) := by
  induction l with
  | nil => intro seen; simp [dedupGo]
  | cons it rest ih =>
    intro seen
    unfold dedupGo
    split
    · exact ih seen
    · refine List.pairwise_cons.mpr ⟨?_, ih _⟩
      intro b hb heq
      have := dedupGo_key_not_seen rest (dedupKey it :: seen) b hb
      exact this (heq ▸ List.mem_cons_self _ _)

theorem dedupGo_first (l : List EventRecord) :
    ∀ seen r, r ∈ dedupGo seen l →
      ∃ pre post, l = pre ++ r :: post ∧
        ∀ x ∈ pre, dedupKey x ∈ seen ∨ dedupKey x ≠ dedupKey r := by
  induction l with
  | nil => intro seen r hr; simp [dedupGo] at hr
  | cons it rest ih =>
    intro seen r hr
    unfold dedupGo at hr
    split at hr
    · rcases ih seen r hr with ⟨pre, post, hsplit, hpre⟩
      refine ⟨it :: pre, post, by rw [hsplit]; rfl, ?_⟩
      intro x hx
      rcases List.mem_cons.mp hx with rfl | hx2
      · left; assumption
      · exact hpre x hx2
    · rcases List.mem_cons.mp hr with rfl | hmem
      · exact ⟨[], rest, rfl, by intro x hx; simp at hx⟩
      · rcases ih _ r hmem with ⟨pre, post, hsplit, hpre⟩
        refine ⟨it :: pre, post, by rw [hsplit]; rfl, ?_⟩
        intro x hx
        have hrnot := dedupGo_key_not_seen rest (dedupKey it :: seen) r hmem
        rcases List.mem_cons.mp hx with rfl | hx2
        · right
          intro hcon
          exact hrnot (hcon ▸ List.mem_cons_self _ _)
        · rcases hpre x hx2 with hs | hne
          · rcases List.mem_cons.mp hs with heq | hs2
            · right
              intro hcon
              exact hrnot (by rw [← hcon, heq]; exact List.mem_cons_self _ _)
            · left; exact hs2
          · right; exact hne

theorem dedupGo_id_of_fresh (l : List EventRecord) :
    ∀ seen, (∀ r ∈ l, dedupKey r ∉ seen) →
      List.Pairwise (fun a b => dedupKey a ≠ dedupKey b) l →
      dedupGo seen l = l := by
  induction l with
  | nil => intro seen _ _; rfl
  | cons it rest ih =>
    intro seen hfresh hpw
    unfold dedupGo
    rw [if_neg (hfresh it (List.mem_cons_self _ _))]
    congr 1
    rcases List.pairwise_cons.mp hpw with ⟨hhead, htail⟩
    refine ih _ ?_ htail
    intro r hr hcon
    rcases List.mem_cons.mp hcon with heq | hseen
    · exact hhead r hr heq.symm
    · exact hfresh r (List.mem_cons_of_mem _ hr) hseen

theorem dedup_idem (l : List EventRecord) : dedup (dedup l) = dedup l := by
  unfold dedup
  refine dedupGo_id_of_fresh _ _ ?_ (dedupGo_pairwise l [])
  intro r _
  simp

/-! ### Selector-resolver lemmas -/

theorem roundMatch_some (counts : Nat → String → Option Nat) (round : Nat) :
    ∀ list sel, roundMatch counts round list = some sel →
      ∃ pre post, list = pre ++ sel :: post ∧
        (∃ c, counts round sel = some c ∧ 0 < c) ∧
        ∀ s ∈ pre, ¬ ∃ c, counts round s = some c ∧ 0 < c := by
  intro list
  induction list with
  | nil => intro sel h; simp [roundMatch] at h
  | cons s rest ih =>
    intro sel h
    simp only [roundMatch] at h
    cases hc : counts round s with
    | some c =>
      simp only [hc] at h
      by_cases hpos : 0 < c
      · rw [if_pos hpos] at h
        cases h
        exact ⟨[], rest, rfl, ⟨c, hc, hpos⟩, by intro x hx; simp at hx⟩
      · rw [if_neg hpos] at h
        rcases ih sel h with ⟨pre, post, hsplit, hsel, hpre⟩
        refine ⟨s :: pre, post, by rw [hsplit]; rfl, hsel, ?_⟩
        intro x hx
        rcases List.mem_cons.mp hx with rfl | hx2
        · rintro ⟨c2, hc2, hpos2⟩
          rw [hc] at hc2
          cases hc2
          exact hpos hpos2
        · exact hpre x hx2
    | none =>
      simp only [hc] at h
      rcases ih sel h with ⟨pre, post, hsplit, hsel, hpre⟩
      refine ⟨s :: pre, post, by rw [hsplit]; rfl, hsel, ?_⟩
      intro x hx
      rcases List.mem_cons.mp hx with rfl | hx2
      · rintro ⟨c2, hc2, _⟩
        rw [hc] at hc2
        cases hc2
      · exact hpre x hx2

theorem roundMatch_skip_error (counts : Nat → String → Option Nat) (round : Nat)
    (s : String) (rest : List String) (herr : counts round s = none) :
    roundMatch counts round (s :: rest) = roundMatch counts round rest := by
  show (match counts round s with
    | some c => if 0 < c then some s else roundMatch counts round rest
    | none => roundMatch counts round rest) = roundMatch counts round rest
  rw [herr]

theorem fesLoop_some (counts : Nat → String → Option Nat) (list : List String) :
    ∀ fuel round sel, fesLoop counts list round fuel = some sel →
      ∃ k, k ≤ fuel ∧ roundMatch counts (round + k) list = some sel ∧
        ∀ j, j < k → roundMatch counts (round + j) list = none := by
  intro fuel
  induction fuel with
  | zero =>
    intro round sel h
    simp only [fesLoop] at h
    cases hr : roundMatch counts round list with
    | some s2 =>
      simp only [hr] at h
      cases h
      exact ⟨0, Nat.le_refl 0, by simpa using hr, by intro j hj; omega⟩
    | none =>
      simp only [hr] at h
      exact Option.noConfusion h
  | succ f ih =>
    intro round sel h
    simp only [fesLoop] at h
    cases hr : roundMatch counts round list with
    | some s2 =>
      simp only [hr] at h
      cases h
      exact ⟨0, Nat.zero_le _, by simpa using hr, by intro j hj; omega⟩
    | none =>
      simp only [hr] at h
      rcases ih (round + 1) sel h with ⟨k, hk, hmatch, hnone⟩
      refine ⟨k + 1, by omega, ?_, ?_⟩
      · have heq : round + (k + 1) = round + 1 + k := by omega
        rw [heq]; exact hmatch
      · intro j hj
        cases j with
        | zero => simpa using hr
        | succ j2 =>
          have heq : round + (j2 + 1) = round + 1 + j2 := by omega
          rw [heq]
          exact hnone j2 (by omega)

theorem fesLoop_none (counts : Nat → String → Option Nat) (list : List String) :
    ∀ fuel round, (∀ k, k ≤ fuel → roundMatch counts (round + k) list = none) →
      fesLoop counts list round fuel = none := by
  intro fuel
  induction fuel with
  | zero =>
    intro round hall
    have h0 : roundMatch counts round list = none := by simpa using hall 0 (Nat.le_refl 0)
    simp only [fesLoop, h0]
  | succ f ih =>
    intro round hall
    have h0 : roundMatch counts round list = none := by simpa using hall 0 (Nat.zero_le _)
    simp only [fesLoop, h0]
    refine ih (round + 1) ?_
    intro k hk
    have heq : round + 1 + k = round + (k + 1) := by omega
    rw [heq]
    exact hall (k + 1) (by omega)

/-! ### Filter characterization -/

theorem applyFilter_some_iff (fl : Filters) (txt : String) :
    applyFilter (some fl) txt = true ↔
      ((∀ w ∈ fl.excl.getD [], jsIncludes (jsToLower txt) (jsToLower w) = false) ∧
       (∀ inc, fl.incl = some inc →
         ∃ w ∈ inc, jsIncludes (jsToLower txt) (jsToLower w) = true)) := by
  simp only [applyFilter]
  by_cases hex : (fl.excl.getD []).any (fun w => jsIncludes (jsToLower txt) (jsToLower w)) = true
  · rw [if_pos hex]
    refine ⟨fun h => absurd h Bool.false_ne_true, fun hrhs => ?_⟩
    exfalso
    rcases hrhs with ⟨hnone, _⟩
    rcases List.any_eq_true.mp hex with ⟨w, hw, hinc⟩
    rw [hnone w hw] at hinc
    exact Bool.noConfusion hinc
  · rw [if_neg hex]
    have hexall : ∀ w ∈ fl.excl.getD [], jsIncludes (jsToLower txt) (jsToLower w) = false := by
      intro w hw
      by_contra hcon
      exact hex (List.any_eq_true.mpr ⟨w, hw, by
        revert hcon; cases jsIncludes (jsToLower txt) (jsToLower w) <;> simp⟩)
    cases hincl : fl.incl with
    | some inc =>
      constructor
      · intro hany
        refine ⟨hexall, ?_⟩
        intro inc2 hinc2
        cases hinc2
        exact List.any_eq_true.mp hany
      · rintro ⟨_, hincprop⟩
        exact List.any_eq_true.mpr (hincprop inc rfl)
    | none =>
      constructor
      · intro _
        refine ⟨hexall, ?_⟩
        intro inc2 hinc2
        exact Option.noConfusion hinc2
      · intro _; rfl

theorem applyFilter_exclude_wins (fl : Filters) (txt : String) (ex : List String)
    (w : String) (hex : fl.excl = some ex) (hw : w ∈ ex)
    (hhit : jsIncludes (jsToLower txt) (jsToLower w) = true) :
    applyFilter (some fl) txt = false := by
  simp only [applyFilter]
  rw [if_pos]
  exact List.any_eq_true.mpr ⟨w, by rw [hex]; exact hw, hhit⟩

/-! ### Per-extractor structure lemmas -/

theorem scrapeJSONItem_isSome (now : Int) (cfg : SourceCfg) (e : JVal) :
    (scrapeJSONItem now cfg e).isSome =
      applyFilter cfg.filters (jsonTitleOf cfg e ++ " " ++ jsonVenueOf cfg e) := by
  unfold scrapeJSONItem
  cases h : applyFilter cfg.filters (jsonTitleOf cfg e ++ " " ++ jsonVenueOf cfg e) <;>
    simp [h]

theorem scrapeJSONLDItem_isSome (now : Int) (cfg : SourceCfg) (e : JVal) :
    (scrapeJSONLDItem now cfg e).isSome =
      applyFilter cfg.filters (ldTitleOf e ++ " " ++ ldVenueOf cfg e) := by
  unfold scrapeJSONLDItem
  cases h : applyFilter cfg.filters (ldTitleOf e ++ " " ++ ldVenueOf cfg e) <;> simp [h]

theorem scrapeICSItem_isSome (now : Int) (cfg : SourceCfg) (ev : IcsEv) :
    (scrapeICSItem now cfg ev).isSome =
      applyFilter cfg.filters (icsTitleOf ev ++ " " ++ icsDescOf cfg ev) := by
  unfold scrapeICSItem
  cases h : applyFilter cfg.filters (icsTitleOf ev ++ " " ++ icsDescOf cfg ev) <;> simp [h]

theorem scrapeRSSItem_isSome (now : Int) (cfg : SourceCfg) (e : JVal) :
    (scrapeRSSItem now cfg e).isSome =
      applyFilter cfg.filters (rssTitleOf e ++ " " ++ rssPrettyDesc cfg e) := by
  unfold scrapeRSSItem
  cases h : applyFilter cfg.filters (rssTitleOf e ++ " " ++ rssPrettyDesc cfg e) <;> simp [h]

theorem domItem_isSome_iff (now : Int) (cfg : SourceCfg) (detail : String → String)
    (card : Card) :
    (domItem now cfg detail card).isSome = true ↔
      (¬ (domTitleOf card = "" ∧ domHrefOf cfg card = "") ∧
        applyFilter cfg.filters
          (domTitleOf card ++ " " ++ domDateOf card ++ " " ++ jsOr cfg.venue "") = true) := by
  unfold domItem
  by_cases hempty : domTitleOf card = "" ∧ domHrefOf cfg card = ""
  · rw [if_pos hempty]
    simp [hempty]
  · rw [if_neg hempty]
    cases h : applyFilter cfg.filters
        (domTitleOf card ++ " " ++ domDateOf card ++ " " ++ jsOr cfg.venue "") <;>
      simp [h, hempty]

theorem domItem_none_of_empty (now : Int) (cfg : SourceCfg) (detail : String → String)
    (card : Card) (ht : domTitleOf card = "") (hh : domHrefOf cfg card = "") :
    domItem now cfg detail card = none := by
  unfold domItem
  rw [if_pos ⟨ht, hh⟩]

theorem scrapeJSONItem_guid (now : Int) (cfg : SourceCfg) (e : JVal)
    (r : EventRecord) (h : scrapeJSONItem now cfg e = some r) :
    r.guid = r.link ++ "#" ++ norm (jsonTitleOf cfg e) ++ "#" ++
      norm (jsonDateOf cfg e) := by
  unfold scrapeJSONItem at h
  split at h
  · cases h; rfl
  · exact Option.noConfusion h

theorem scrapeJSONLDItem_guid (now : Int) (cfg : SourceCfg) (e : JVal)
    (r : EventRecord) (h : scrapeJSONLDItem now cfg e = some r) :
    r.guid = r.link ++ "#" ++ norm (ldTitleOf e) ++ "#" ++ norm (ldStartOf e) := by
  unfold scrapeJSONLDItem at h
  split at h
  · cases h; rfl
  · exact Option.noConfusion h

theorem scrapeICSItem_guid (now : Int) (cfg : SourceCfg) (ev : IcsEv)
    (r : EventRecord) (h : scrapeICSItem now cfg ev = some r) :
    r.guid = r.link ++ "#" ++ norm (icsTitleOf ev) ++ "#" ++
      norm (jsTrim ev.dtstart) := by
  unfold scrapeICSItem at h
  split at h
  · cases h; rfl
  · exact Option.noConfusion h

theorem domItem_guid (now : Int) (cfg : SourceCfg) (detail : String → String)
    (card : Card) (r : EventRecord) (h : domItem now cfg detail card = some r) :
    r.guid = r.link ++ "#" ++ norm (domTitleOf card) ++ "#" ++
      norm (domDateOf card) := by
  unfold domItem at h
  split at h
  · exact Option.noConfusion h
  · split at h
    · cases h; rfl
    · exact Option.noConfusion h

theorem scrapeRSSItem_guid (now : Int) (cfg : SourceCfg) (e : JVal)
    (r : EventRecord) (h : scrapeRSSItem now cfg e = some r) :
    r.guid = jsToString (jsOrVal (rssLinkVal cfg e) (some (JVal.str cfg.rss))) ++
      "#" ++ norm (rssTitleOf e) := by
  unfold scrapeRSSItem at h
  split at h
  · cases h; rfl
  · exact Option.noConfusion h

theorem domItem_link_resolved (now : Int) (cfg : SourceCfg)
    (detail : String → String) (card : Card) (r : EventRecord)
    (h : domItem now cfg detail card = some r)
    (hne : domHrefRaw card ≠ "") (hslash : jsStartsWith "/" (domHrefRaw card) = true) :
    r.link = toAbs (domHrefRaw card) cfg.url := by
  have habs : domHrefOf cfg card = toAbs (domHrefRaw card) cfg.url := by
    unfold domHrefOf
    rw [if_pos ⟨hne, hslash⟩]
  unfold domItem at h
  split at h
  · exact Option.noConfusion h
  · split at h
    · cases h
      show jsOr (domHrefOf cfg card) cfg.url = toAbs (domHrefRaw card) cfg.url
      rw [habs]
      unfold jsOr
      rw [if_neg (toAbs_ne_empty _ _ hne)]
    · exact Option.noConfusion h

theorem domItem_link_verbatim (now : Int) (cfg : SourceCfg)
    (detail : String → String) (card : Card) (r : EventRecord)
    (h : domItem now cfg detail card = some r)
    (hslash : jsStartsWith "/" (domHrefRaw card) = false) :
    r.link = jsOr (domHrefRaw card) cfg.url := by
  have habs : domHrefOf cfg card = domHrefRaw card := by
    unfold domHrefOf
    rw [if_neg]
    rintro ⟨_, hcon⟩
    rw [hslash] at hcon
    exact Bool.noConfusion hcon
  unfold domItem at h
  split at h
  · exact Option.noConfusion h
  · split at h
    · cases h
      show jsOr (domHrefOf cfg card) cfg.url = jsOr (domHrefRaw card) cfg.url
      rw [habs]
    · exact Option.noConfusion h

theorem take_min_length (cards : List Card) (n : Nat) :
    cards.take (Nat.min cards.length n) = cards.take n := by
  show List.take (if cards.length ≤ n then cards.length else n) cards = List.take n cards
  split
  · rw [List.take_length, List.take_of_length_le (by omega)]
  · rfl

theorem scrapeDOMCore_eq_take (now : Int) (cfg : SourceCfg)
    (detail : String → String) (cards : List Card) :
    scrapeDOMCore now cfg detail cards =
      (cards.take (maxOf cfg)).filterMap (domItem now cfg detail) := by
  unfold scrapeDOMCore
  rw [take_min_length]

theorem scrapeDOMCore_length_le (now : Int) (cfg : SourceCfg)
    (detail : String → String) (cards : List Card) :
    (scrapeDOMCore now cfg detail cards).length ≤ maxOf cfg := by
  rw [scrapeDOMCore_eq_take]
  calc ((cards.take (maxOf cfg)).filterMap (domItem now cfg detail)).length
      ≤ (cards.take (maxOf cfg)).length := List.length_filterMap_le _ _
    _ ≤ maxOf cfg := List.length_take_le _ _

/-! ## Concrete fixtures used by the claim theorems -/

/-- The C1 scenario body
`{"events":[{"name":"Jazz Night","url":"/e/1","start_date":"2024-05-01","venue":{"name":"The Hall"}}]}`. -/
def dataJ : JVal :=
  JVal.obj [("events", JVal.arr [JVal.obj
    [("name", JVal.str "Jazz Night"), ("url", JVal.str "/e/1"),
     ("start_date", JVal.str "2024-05-01"),
     ("venue", JVal.obj [("name", JVal.str "The Hall")])]])]

/-- A json-mode source with town `Roswell` and NO `map` override. -/
def cfgJ1 : SourceCfg := { api := "https://api.example/evts", town := "Roswell" }

def mapJ2 : JsonMap :=
  { path := some "events", title := none, link := none, date := none,
    venue := none, image := none }

/-- The same source with `map.path = "events"` configured. -/
def cfgJ2 : SourceCfg :=
  { api := "https://api.example/evts", town := "Roswell", map := some mapJ2 }

/-- An ics-mode source. -/
def cfgI8 : SourceCfg := { ics := "https://cal.example/main.ics" }

/-- The C8 scenario calendar: one VEVENT with `SUMMARY:Trivia` and
`DTSTART:20240601T190000`, no `URL`/`LOCATION`. -/
def body8 : String :=
  "BEGIN:VCALENDAR\nVERSION:2.0\nBEGIN:VEVENT\nSUMMARY:Trivia\nDTSTART:20240601T190000\nEND:VEVENT\nEND:VCALENDAR\n"

/-- A calendar whose only `URL:` occurrence sits mid-line inside a
`DESCRIPTION` line, so that no line starts with `URL:`. -/
def bodyU : String :=
  "BEGIN:VCALENDAR\nBEGIN:VEVENT\nSUMMARY:S\nDESCRIPTION:visit URL:https://e.x/a\nEND:VEVENT\n"

/-- The single VEVENT block of `bodyU` (what `split('BEGIN:VEVENT').slice(1)`
yields). -/
def blockU : String := "\nSUMMARY:S\nDESCRIPTION:visit URL:https://e.x/a\nEND:VEVENT\n"

/-- An rss-mode source. -/
def cfgR : SourceCfg := { rss := "https://feed.example/f.xml" }

/-- A parsed RSS document with one entry carrying a title, a link and a
pubDate. -/
def parsedR : JVal :=
  JVal.obj [("rss", JVal.obj [("channel", JVal.obj
    [("item", JVal.obj [("title", JVal.str "Gala Night"),
      ("link", JVal.str "https://x.example/p"),
      ("pubDate", JVal.str "2024-05-01")])])])]

/-- A detail-page image fetcher that finds nothing. -/
def dtl0 : String → String := fun _ => ""

/-- A dom-mode source with `max = 1`. -/
def cfgD : SourceCfg := { url := "https://x.example/list", max := some 1 }

/-- An item element yielding neither title nor link. -/
def badCard : Card :=
  { titleCands := [], linkCands := [], dateCands := [], imageCands := [] }

/-- An item element yielding a title. -/
def goodCard : Card :=
  { titleCands := ["Show"], linkCands := [], dateCands := [], imageCands := [] }

/-- A dom-mode source at `https://x.example/list`. -/
def cfgE : SourceCfg := { url := "https://x.example/list" }

/-- An item whose href is the root-relative `/events/42`. -/
def cardE : Card :=
  { titleCands := ["T"], linkCands := [some "/events/42"], dateCands := [],
    imageCands := [] }

/-- An item whose href is the (non-root) relative `events/42`. -/
def cardRel : Card :=
  { titleCands := ["T"], linkCands := [some "events/42"], dateCands := [],
    imageCands := [] }

/-- An all-default source configuration. -/
def cfg0 : SourceCfg := {}

/-- A minimal parsed ICS event. -/
def evC : IcsEv := { summary := "S", url := "", dtstart := "", venue := "" }

/-- The record `scrapeICSItem 0 cfg0 evC` emits. -/
def rC : EventRecord :=
  { title := "S", link := "", guid := "#s#",
    pubDate := "Thu, 01 Jan 1970 00:00:00 GMT", description := "", image := "",
    town := "", venue := "" }

/-- The record `domItem 0 cfgE dtl0 cardE` emits. -/
def rE : EventRecord :=
  { title := "T", link := "https://x.example/events/42",
    guid := "https://x.example/events/42#t#",
    pubDate := "Thu, 01 Jan 1970 00:00:00 GMT", description := "", image := "",
    town := "", venue := "" }

/-! ## Claim theorems -/

/-- C1, counterexample: with the scenario body and NO `map` override, the
full-featured `scrapeJSON` emits ZERO records — `pick(data, cfg.map?.path)`
is `undefined` and the body itself is an object, not an array, so the event
list resolves to `[]`.  The body does hold one event (visible once
`map.path = "events"` is configured), so the claim's scenario fails on the
code. -/
theorem C1_json_no_map_counterexample :
    scrapeJSONCore 0 cfgJ1 dataJ = [] ∧
    (jsonListOf cfgJ1 dataJ).length = 0 ∧
    (jsonListOf cfgJ2 dataJ).length = 1 := by
  refine ⟨by decide, by decide, by decide⟩

/-- C1, amended: with `map.path = "events"` configured (the minimal change the
counterexample forces), the scenario holds: exactly one record with title
`"[Roswell] Jazz Night"`, link `"/e/1"` resolved absolute against the api URL,
and description `"The Hall — 2024-05-01"`.  In general the event list is
resolved via the configured `map.path` when that yields a list, else the whole
body when it is already a list, else the empty list. -/
theorem C1_json_amended :
    (∀ now : Int,
      (scrapeJSONCore now cfgJ2 dataJ).map (fun r => (r.title, r.link, r.description)) =
        [("[Roswell] Jazz Night", "https://api.example/e/1", "The Hall — 2024-05-01")]) ∧
    (∀ cfg data l, pickOpt (some data) (cfg.map.bind JsonMap.path) = some (JVal.arr l) →
      jsonListOf cfg data = l) ∧
    (∀ cfg data l, isArrOpt (pickOpt (some data) (cfg.map.bind JsonMap.path)) = false →
      data = JVal.arr l → jsonListOf cfg data = l) ∧
    (∀ cfg data, isArrOpt (pickOpt (some data) (cfg.map.bind JsonMap.path)) = false →
      isArr data = false → jsonListOf cfg data = []) := by
  refine ⟨fun _ => rfl, ?_, ?_, ?_⟩
  · intro cfg data l h
    unfold jsonListOf
    rw [h]
  · intro cfg data l hno harr
    subst harr
    unfold jsonListOf
    cases hp : pickOpt (some (JVal.arr l)) (cfg.map.bind JsonMap.path) with
    | none => rfl
    | some v =>
      cases v with
      | arr l2 => rw [hp] at hno; simp [isArrOpt] at hno
      | null => rfl
      | bool b => rfl
      | num n => rfl
      | str s => rfl
      | obj fs => rfl
  · intro cfg data hno hnodata
    unfold jsonListOf
    cases hp : pickOpt (some data) (cfg.map.bind JsonMap.path) with
    | none =>
      cases data with
      | arr l => simp [isArr] at hnodata
      | null => rfl
      | bool b => rfl
      | num n => rfl
      | str s => rfl
      | obj fs => rfl
    | some v =>
      cases v with
      | arr l2 => rw [hp] at hno; simp [isArrOpt] at hno
      | null =>
        cases data with
        | arr l => simp [isArr] at hnodata
        | null => rfl
        | bool b => rfl
        | num n => rfl
        | str s => rfl
        | obj fs => rfl
      | bool b =>
        cases data with
        | arr l => simp [isArr] at hnodata
        | null => rfl
        | bool b2 => rfl
        | num n => rfl
        | str s => rfl
        | obj fs => rfl
      | num n =>
        cases data with
        | arr l => simp [isArr] at hnodata
        | null => rfl
        | bool b => rfl
        | num n2 => rfl
        | str s => rfl
        | obj fs => rfl
      | str s =>
        cases data with
        | arr l => simp [isArr] at hnodata
        | null => rfl
        | bool b => rfl
        | num n => rfl
        | str s2 => rfl
        | obj fs => rfl
      | obj fs =>
        cases data with
        | arr l => simp [isArr] at hnodata
        | null => rfl
        | bool b => rfl
        | num n => rfl
        | str s => rfl
        | obj fs2 => rfl

/-- C1, witness: the amended theorem applied at the scenario input — the path
branch of the list resolution fires on `map.path = "events"`. -/
theorem C1_json_amended_witness :
    jsonListOf cfgJ2 dataJ =
      [JVal.obj [("name", JVal.str "Jazz Night"), ("url", JVal.str "/e/1"),
        ("start_date", JVal.str "2024-05-01"),
        ("venue", JVal.obj [("name", JVal.str "The Hall")])]] :=
  C1_json_amended.2.1 cfgJ2 dataJ _ rfl

/-- C2, counterexample: a present-but-unparseable source date does NOT default
to the current run time — `new Date("May Fifth Gig").toUTCString()` is the
invalid-marker string `"Invalid Date"`, and an ICS source with a
non-ISO `DTSTART` emits exactly that as its `pubDate`.  (The run time here is
1714521600000 = 2024-05-01T00:00:00Z.) -/
theorem C2_pubDate_counterexample :
    rfc822 "May Fifth Gig" 1714521600000 = "Invalid Date" ∧
    utcString 1714521600000 = "Wed, 01 May 2024 00:00:00 GMT" ∧
    "Invalid Date" ≠ "Wed, 01 May 2024 00:00:00 GMT" ∧
    (scrapeICSCore 1714521600000 cfgI8 body8).map (fun r => r.pubDate) =
      ["Invalid Date"] := by
  refine ⟨by decide, by decide, by decide, by decide⟩

/-- C2, amended: when the source date is ABSENT (empty), the emitted `pubDate`
is the current run time in the fixed `toUTCString` format (ending in `" GMT"`,
never the invalid marker); when a date is present but unparseable, the emitted
`pubDate` is the string `"Invalid Date"` — an invalid-date marker, not the run
time. -/
theorem C2_pubDate_amended :
    (∀ now : Int, rfc822 "" now = utcBody now ++ " GMT") ∧
    (∀ d now ts, jsDateParse d = some ts → d ≠ "" → rfc822 d now = utcString ts) ∧
    (∀ d (now : Int), d ≠ "" → jsDateParse d = none → rfc822 d now = "Invalid Date") ∧
    (∀ now : Int, rfc822 "" now ≠ "Invalid Date") := by
  refine ⟨?_, ?_, ?_, ?_⟩
  · intro now
    unfold rfc822
    rw [if_pos rfl]
    rfl
  · intro d now ts hp hne
    unfold rfc822
    rw [if_neg hne, hp]
  · intro d now hne hp
    unfold rfc822
    rw [if_neg hne, hp]
  · intro now
    unfold rfc822
    rw [if_pos rfl]
    exact append_gmt_ne_invalid (utcBody now)

/-- C2, witness: the amended theorem applied at a concrete unparseable date. -/
theorem C2_pubDate_amended_witness :
    rfc822 "next Friday" 5 = "Invalid Date" :=
  C2_pubDate_amended.2.2.1 "next Friday" 5 (by decide) (by decide)

/-- C3: de-duplication (keyed on `norm title | norm description | norm link`)
is a set-reduction: idempotent, never length-increasing, no two records with
the same key are both retained, and the record kept for each key is the FIRST
one in source order. -/
theorem C3_dedup_set_reduction :
    ∀ L : List EventRecord,
      dedup (dedup L) = dedup L ∧
      (dedup L).length ≤ L.length ∧
      List.Pairwise (fun a b => dedupKey a ≠ dedupKey b) (dedup L) ∧
      ∀ r ∈ dedup L, ∃ pre post, L = pre ++ r :: post ∧
        ∀ x ∈ pre, dedupKey x ≠ dedupKey r := by
  intro L
  refine ⟨dedup_idem L, dedupGo_length_le L [], dedupGo_pairwise L [], ?_⟩
  intro r hr
  rcases dedupGo_first L [] r hr with ⟨pre, post, hsplit, hpre⟩
  exact ⟨pre, post, hsplit, fun x hx => (hpre x hx).resolve_left (by simp)⟩

/-- A record fixture for the C3 witness. -/
def recA : EventRecord :=
  { title := "Jazz Night", link := "https://a.example/e", guid := "g1",
    pubDate := "p1", description := "D", image := "", town := "", venue := "" }

/-- Same dedup key as `recA` (title differs only in case/whitespace), later in
source order. -/
def recB : EventRecord :=
  { title := "  JAZZ   night ", link := "https://a.example/e", guid := "g2",
    pubDate := "p2", description := "D", image := "", town := "", venue := "" }

/-- C3, witness: the first-kept clause applied to a concrete duplicate pair —
`recA` survives and nothing before it shares its key. -/
theorem C3_dedup_witness :
    ∃ pre post, [recA, recB] = pre ++ recA :: post ∧
      ∀ x ∈ pre, dedupKey x ≠ dedupKey recA :=
  (C3_dedup_set_reduction [recA, recB]).2.2.2 recA (by decide)

/-- C4: record filtering.  (i) A source with no `filters` keeps everything.
(ii) With filters, a record is kept iff no exclude term occurs in the blob
(case-insensitive substring) and, whenever an include list is present, some
include term occurs.  (iii) Exclude takes precedence: an exclude hit drops
the record even when an include term also occurs.  (iv-viii) In every
extraction mode the per-item emission is gated by exactly this predicate on
the mode's synthesized text blob (json/jsonld: title+venue; ics: title+desc;
rss: title+pretty description; dom: title+date+venue, after the
title-or-link existence check). -/
theorem C4_filters :
    (∀ txt, applyFilter none txt = true) ∧
    (∀ fl txt, applyFilter (some fl) txt = true ↔
      ((∀ w ∈ fl.excl.getD [], jsIncludes (jsToLower txt) (jsToLower w) = false) ∧
       (∀ inc, fl.incl = some inc →
         ∃ w ∈ inc, jsIncludes (jsToLower txt) (jsToLower w) = true))) ∧
    (∀ fl txt ex w, fl.excl = some ex → w ∈ ex →
      jsIncludes (jsToLower txt) (jsToLower w) = true →
      applyFilter (some fl) txt = false) ∧
    (∀ now cfg e, (scrapeJSONItem now cfg e).isSome =
      applyFilter cfg.filters (jsonTitleOf cfg e ++ " " ++ jsonVenueOf cfg e)) ∧
    (∀ now cfg e, (scrapeJSONLDItem now cfg e).isSome =
      applyFilter cfg.filters (ldTitleOf e ++ " " ++ ldVenueOf cfg e)) ∧
    (∀ now cfg ev, (scrapeICSItem now cfg ev).isSome =
      applyFilter cfg.filters (icsTitleOf ev ++ " " ++ icsDescOf cfg ev)) ∧
    (∀ now cfg e, (scrapeRSSItem now cfg e).isSome =
      applyFilter cfg.filters (rssTitleOf e ++ " " ++ rssPrettyDesc cfg e)) ∧
    (∀ now cfg detail card, (domItem now cfg detail card).isSome = true ↔
      (¬ (domTitleOf card = "" ∧ domHrefOf cfg card = "") ∧
        applyFilter cfg.filters
          (domTitleOf card ++ " " ++ domDateOf card ++ " " ++ jsOr cfg.venue "") = true)) :=
  ⟨fun _ => rfl, applyFilter_some_iff, applyFilter_exclude_wins,
    scrapeJSONItem_isSome, scrapeJSONLDItem_isSome, scrapeICSItem_isSome,
    scrapeRSSItem_isSome, domItem_isSome_iff⟩

/-- C4, witness: exclude beats include — a blob containing both "jazz" and
"bingo" is dropped under `{include: ["jazz"], exclude: ["bingo"]}`. -/
theorem C4_filters_witness :
    applyFilter (some (Filters.mk (some ["jazz"]) (some ["bingo"])))
      "Jazz AND Bingo night" = false :=
  C4_filters.2.2.1 (Filters.mk (some ["jazz"]) (some ["bingo"]))
    "Jazz AND Bingo night" ["bingo"] "bingo" rfl (by decide) (by decide)

/-- C5, counterexample: the RSS extractor's guid has NO date component (and
uses the unresolved link): the emitted guid is `link#gala night`, not
`link#gala night#2024-05-01` as the claimed `link + normalized title +
normalized date` scheme would give. -/
theorem C5_rss_guid_counterexample :
    (scrapeRSSCore 0 cfgR parsedR).map (fun r => r.guid) =
      ["https://x.example/p#gala night"] ∧
    (scrapeRSSCore 0 cfgR parsedR).map (fun r => r.link) = ["https://x.example/p"] ∧
    "https://x.example/p#gala night" ≠
      "https://x.example/p" ++ "#" ++ norm "Gala Night" ++ "#" ++ norm "2024-05-01" := by
  refine ⟨by decide, by decide, by decide⟩

/-- C5, amended: for the dom, jsonld, json and ics extractors, every emitted
record's guid is the record's link, `"#"`, the normalized raw title, `"#"`,
and the normalized raw date; the rss extractor instead uses the UNRESOLVED
link value (or the feed URL), `"#"`, and the normalized title, with no date
component. -/
theorem C5_guid_amended :
    (∀ now cfg e r, scrapeJSONItem now cfg e = some r →
      r.guid = r.link ++ "#" ++ norm (jsonTitleOf cfg e) ++ "#" ++
        norm (jsonDateOf cfg e)) ∧
    (∀ now cfg e r, scrapeJSONLDItem now cfg e = some r →
      r.guid = r.link ++ "#" ++ norm (ldTitleOf e) ++ "#" ++ norm (ldStartOf e)) ∧
    (∀ now cfg ev r, scrapeICSItem now cfg ev = some r →
      r.guid = r.link ++ "#" ++ norm (icsTitleOf ev) ++ "#" ++
        norm (jsTrim ev.dtstart)) ∧
    (∀ now cfg detail card r, domItem now cfg detail card = some r →
      r.guid = r.link ++ "#" ++ norm (domTitleOf card) ++ "#" ++
        norm (domDateOf card)) ∧
    (∀ now cfg e r, scrapeRSSItem now cfg e = some r →
      r.guid = jsToString (jsOrVal (rssLinkVal cfg e) (some (JVal.str cfg.rss))) ++
        "#" ++ norm (rssTitleOf e)) :=
  ⟨scrapeJSONItem_guid, scrapeJSONLDItem_guid, scrapeICSItem_guid,
    domItem_guid, scrapeRSSItem_guid⟩

/-- C5, witness: the ICS clause applied at a concrete event. -/
theorem C5_guid_amended_witness :
    rC.guid = rC.link ++ "#" ++ norm (icsTitleOf evC) ++ "#" ++
      norm (jsTrim evC.dtstart) :=
  C5_guid_amended.2.2.1 0 cfg0 evC rC (by decide)

/-- C6, counterexample: a discarded (title-less, link-less) item element DOES
consume a slot of the `max` cap — with `max = 1` and a bad element first, the
surviving later element is NOT emitted, although alone it would be. -/
theorem C6_dom_cap_counterexample :
    domTitleOf badCard = "" ∧ domHrefOf cfgD badCard = "" ∧
    (scrapeDOMCore 0 cfgD dtl0 [badCard, goodCard]).length = 0 ∧
    (scrapeDOMCore 0 cfgD dtl0 [goodCard]).length = 1 := by
  refine ⟨by decide, by decide, by decide, by decide⟩

/-- C6, amended: an item element yielding neither title nor link is discarded
(never emitted), but the per-source `max` cap is applied to the first
`min(cards.length, max)` item ELEMENTS scanned — a discarded element still
consumes a cap slot, and at most `max` records are emitted. -/
theorem C6_dom_discard_amended :
    (∀ now cfg detail card, domTitleOf card = "" → domHrefOf cfg card = "" →
      domItem now cfg detail card = none) ∧
    (∀ now cfg detail cards, scrapeDOMCore now cfg detail cards =
      (cards.take (maxOf cfg)).filterMap (domItem now cfg detail)) ∧
    (∀ now cfg detail cards, (scrapeDOMCore now cfg detail cards).length ≤ maxOf cfg) :=
  ⟨domItem_none_of_empty, scrapeDOMCore_eq_take, scrapeDOMCore_length_le⟩

/-- C6, witness: the discard clause applied at a concrete empty element. -/
theorem C6_dom_discard_amended_witness :
    domItem 0 cfgD dtl0 badCard = none :=
  C6_dom_discard_amended.1 0 cfgD dtl0 badCard (by decide) (by decide)

/-- C7, counterexample: a source-relative href that does not start with `/` is
NOT resolved — `href="events/42"` is emitted verbatim as the record's link,
which is not an absolute URL. -/
theorem C7_dom_relative_counterexample :
    (scrapeDOMCore 0 cfgE dtl0 [cardRel]).map (fun r => r.link) = ["events/42"] ∧
    isAbsoluteUrl "events/42" = false := by
  refine ⟨by decide, by decide⟩

/-- C7, amended: only hrefs that START WITH `/` are resolved against the
source url (in particular `/events/42` with `url="https://x.example/list"`
yields `https://x.example/events/42`); any other non-empty href — including
relative forms like `events/42` — is emitted verbatim, unresolved. -/
theorem C7_dom_link_amended :
    (∀ now cfg detail card r, domItem now cfg detail card = some r →
      domHrefRaw card ≠ "" → jsStartsWith "/" (domHrefRaw card) = true →
      r.link = toAbs (domHrefRaw card) cfg.url) ∧
    ((scrapeDOMCore 0 cfgE dtl0 [cardE]).map (fun r => r.link) =
      ["https://x.example/events/42"]) ∧
    (∀ now cfg detail card r, domItem now cfg detail card = some r →
      jsStartsWith "/" (domHrefRaw card) = false →
      r.link = jsOr (domHrefRaw card) cfg.url) :=
  ⟨domItem_link_resolved, by decide, domItem_link_verbatim⟩

/-- C7, witness: the resolution clause applied at the `/events/42` element. -/
theorem C7_dom_link_amended_witness :
    rE.link = toAbs (domHrefRaw cardE) cfgE.url :=
  C7_dom_link_amended.1 0 cfgE dtl0 cardE rE (by decide) (by decide) (by decide)

/-- C8, counterexample: field extraction is NOT line-anchored — the regex
`KEY:(.*)` matches the first occurrence of `KEY:` anywhere in the block, so a
mid-line `URL:` inside a `DESCRIPTION` line is picked up: the extracted URL
(and hence the emitted record's link) is `https://e.x/a`, while the claimed
first-line-starting-with-key matching (`icsGetSpec`) extracts nothing and
would have made the link the calendar URL. -/
theorem C8_ics_lineanchor_counterexample :
    icsGet blockU "URL" = "https://e.x/a" ∧
    icsGetSpec blockU "URL" = "" ∧
    icsGet blockU "URL" ≠ icsGetSpec blockU "URL" ∧
    (scrapeICSCore 0 cfgI8 bodyU).map (fun r => r.link) = ["https://e.x/a"] ∧
    "https://e.x/a" ≠ cfgI8.ics := by
  refine ⟨by decide, by decide, by decide, by decide, by decide⟩

/-- C8, amended: the ICS extractor splits the body on `BEGIN:VEVENT` and
discards the preamble; per block it extracts `SUMMARY`, `URL`, `DTSTART`,
`LOCATION` from the FIRST OCCURRENCE of `KEY:` anywhere in the block (not
anchored to a line start), taking the rest of that line, with missing keys
tolerated as empty; for the scenario body (one VEVENT with `SUMMARY:Trivia`,
`DTSTART:20240601T190000`, no `URL`/`LOCATION`) exactly one record is
emitted, with link equal to the calendar URL and image empty. -/
theorem C8_ics_amended :
    ((scrapeICSCore 0 cfgI8 body8).map (fun r => (r.link, r.image)) =
      [("https://cal.example/main.ics", "")]) ∧
    cfgI8.ics = "https://cal.example/main.ics" ∧
    (scrapeICSCore 0 cfgI8 body8).length = 1 ∧
    (∀ now cfg text, scrapeICSCore now cfg text =
      (((jsSplit "BEGIN:VEVENT" text).drop 1).map (icsParse cfg)).filterMap
        (scrapeICSItem now cfg)) ∧
    (∀ block k, findSubIdx (k ++ ":").toList block.toList = none →
      icsGet block k = "") := by
  refine ⟨by decide, rfl, by decide, fun _ _ _ => rfl, ?_⟩
  intro block k h
  unfold icsGet
  rw [h]

/-- C8, witness: the missing-field clause applied at a concrete block — a
block with no `URL:` occurrence yields the empty string. -/
theorem C8_ics_amended_witness :
    icsGet "SUMMARY:Trivia" "URL" = "" :=
  C8_ics_amended.2.2.2.2 "SUMMARY:Trivia" "URL" (by decide)

/-- C9: the selector resolver.  (i) When it returns a selector, that selector
is a member of the trimmed non-empty comma-split candidate list, some poll
round `k` within the timeout gave it a positive match count, every earlier
round matched nothing, and every candidate BEFORE it in list order had no
positive count on round `k` (a throwing candidate counts as no match).
(ii) When every round within the timeout matches nothing, it returns `null`.
(iii) A candidate whose query throws is skipped and iteration continues with
the remaining candidates; the resolver is a total function, so it never
raises. -/
theorem C9_selector_resolver :
    (∀ counts cands fuel sel,
      firstExistingSelector counts cands fuel = some sel →
        ∃ k, k ≤ fuel ∧
          (∀ j, j < k → roundMatch counts j (fesList cands) = none) ∧
          ∃ pre post, fesList cands = pre ++ sel :: post ∧
            (∃ c, counts k sel = some c ∧ 0 < c) ∧
            ∀ s ∈ pre, ¬ ∃ c, counts k s = some c ∧ 0 < c) ∧
    (∀ counts cands fuel,
      (∀ k, k ≤ fuel → roundMatch counts k (fesList cands) = none) →
      firstExistingSelector counts cands fuel = none) ∧
    (∀ counts round s rest, counts round s = none →
      roundMatch counts round (s :: rest) = roundMatch counts round rest) := by
  refine ⟨?_, ?_, roundMatch_skip_error⟩
  · intro counts cands fuel sel h
    unfold firstExistingSelector at h
    split at h
    · exact Option.noConfusion h
    · rcases fesLoop_some counts (fesList cands) fuel 0 sel h with ⟨k, hk, hmatch, hnone⟩
      rw [Nat.zero_add] at hmatch
      refine ⟨k, hk, ?_, ?_⟩
      · intro j hj
        have := hnone j hj
        rwa [Nat.zero_add] at this
      · exact roundMatch_some counts k (fesList cands) sel hmatch
  · intro counts cands fuel hall
    unfold firstExistingSelector
    split
    · rfl
    · refine fesLoop_none counts (fesList cands) fuel 0 ?_
      intro k hk
      rw [Nat.zero_add]
      exact hall k hk

/-- C9, witness: the error-tolerance clause applied at a concrete throwing
candidate — the erroring selector is skipped and the round proceeds to the
remaining candidates. -/
theorem C9_selector_resolver_witness :
    roundMatch (fun _ _ => none) 0 ("[bad!" :: ["article"]) =
      roundMatch (fun _ _ => none) 0 ["article"] :=
  C9_selector_resolver.2.2 (fun _ _ => none) 0 "[bad!" ["article"] rfl

/-- C10: `toAbs` is total and never throws: when the URL constructor succeeds
it returns the resolved absolute URL; when construction fails it returns
`href || base` (href when non-empty, else base) — so when both `href` and
`base` are malformed, the value stored in a record's link/image field is not
an absolute URL at all. -/
theorem C10_toAbs_total :
    (∀ h b u, urlResolve h b = some u → toAbs h b = u) ∧
    (∀ h b, urlResolve h b = none → toAbs h b = jsOr h b) ∧
    (urlResolve "not a url" "still not one" = none ∧
      toAbs "not a url" "still not one" = "not a url" ∧
      isAbsoluteUrl (toAbs "not a url" "still not one") = false) :=
  ⟨toAbs_eq_of_resolve, toAbs_eq_of_fail, by decide, by decide, by decide⟩

/-- C10, witness: the success clause applied at a concrete relative href. -/
theorem C10_toAbs_total_witness :
    toAbs "/e/1" "https://a.example/x" = "https://a.example/e/1" :=
  C10_toAbs_total.1 "/e/1" "https://a.example/x" "https://a.example/e/1" (by decide)
